import Mathlib

/-!
# Verification of the OpenClaw Deck gateway client

A shallow embedding of the `GatewayClient` class from `src/types/index.ts`
(the self-contained gateway WebSocket client) and of the `GatewayConnection.client`
accessor from `src/lib/gateway-wrapper.ts`, together with theorems settling the
frozen claims about request/response correlation, disconnect semantics,
reconnection backoff, the handshake challenge interception, the canonical
device-auth payload, and the pairing-required callback protocol.

The client is callback-driven JavaScript; it is embedded as an explicit state
machine: `CState` carries the mutable fields of the class, each code path
(a socket callback, a timer callback, a public method) becomes a pure function
`CState → ... → CState × List Eff`, where `Eff` records the externally
observable actions the code performs (settling a request promise, invoking a
subscriber callback, sending a frame, arming a timer, ...).  `step` dispatches
one asynchronous event, and `run` folds a whole event sequence.
-/

namespace OpenClawDeck

/- ## Decimal rendering of numbers

JavaScript template literals render numbers in decimal
(`` `deck-${++this.msgCounter}-${Date.now()}` ``, src/types/index.ts:508).
`decDigits` is that decimal rendering, written with an explicit fuel argument
(structurally recursive, so that concrete instances reduce by `rfl`). -/

/-- Decimal digits of `n`, most significant first; `fuel` bounds recursion depth. -/
def decDigitsAux : Nat → Nat → List Char
  | 0, _ => []
  | fuel + 1, n =>
    if n < 10 then [Nat.digitChar n]
    else decDigitsAux fuel (n / 10) ++ [Nat.digitChar (n % 10)]

/-- Decimal digits of `n`, most significant first. -/
def decDigits (n : Nat) : List Char := decDigitsAux (n + 1) n

/-- The decimal string for `n`, as a JS template literal renders a number. -/
def decRepr (n : Nat) : String := ⟨decDigits n⟩

lemma decDigitsAux_congr : ∀ n f₁ f₂, n < f₁ → n < f₂ →
    decDigitsAux f₁ n = decDigitsAux f₂ n := by
  intro n
  induction n using Nat.strong_induction_on with
  | _ n ih =>
    intro f₁ f₂ h₁ h₂
    match f₁, f₂ with
    | g₁ + 1, g₂ + 1 =>
      simp only [decDigitsAux]
      split
      · rfl
      · rename_i hn
        have hlt : n / 10 < n := Nat.div_lt_self (by omega) (by omega)
        rw [ih (n / 10) hlt g₁ g₂ (by omega) (by omega)]

/-- Unfolding equation for `decDigits`, free of the fuel argument. -/
lemma decDigits_eq (n : Nat) :
    decDigits n = if n < 10 then [Nat.digitChar n]
                  else decDigits (n / 10) ++ [Nat.digitChar (n % 10)] := by
  show decDigitsAux (n + 1) n = _
  simp only [decDigitsAux]
  split
  · rfl
  · rename_i hn
    have hlt : n / 10 < n := Nat.div_lt_self (by omega) (by omega)
    rw [decDigitsAux_congr (n / 10) n (n / 10 + 1) hlt (by omega)]
    rfl

lemma digitChar_toNat (d : Nat) (h : d < 10) : (Nat.digitChar d).toNat = 48 + d := by
  interval_cases d <;> decide

lemma digitChar_ne_dash (d : Nat) (h : d < 10) : Nat.digitChar d ≠ '-' := by
  interval_cases d <;> decide

/-- Reading the decimal digits back as a number. -/
def decodeDigits (l : List Char) : Nat :=
  l.foldl (fun a c => 10 * a + (c.toNat - 48)) 0

lemma decodeDigits_append_one (l : List Char) (c : Char) :
    decodeDigits (l ++ [c]) = 10 * decodeDigits l + (c.toNat - 48) := by
  unfold decodeDigits
  rw [List.foldl_append]
  rfl

lemma decodeDigits_decDigits (n : Nat) : decodeDigits (decDigits n) = n := by
  induction n using Nat.strong_induction_on with
  | _ n ih =>
    rw [decDigits_eq]
    split
    · rename_i h
      show 10 * 0 + ((Nat.digitChar n).toNat - 48) = n
      rw [digitChar_toNat n h]
      omega
    · rename_i h
      rw [decodeDigits_append_one,
        ih (n / 10) (Nat.div_lt_self (by omega) (by omega)),
        digitChar_toNat (n % 10) (Nat.mod_lt n (by omega))]
      omega

lemma decDigits_inj {m n : Nat} (h : decDigits m = decDigits n) : m = n := by
  have := congrArg decodeDigits h
  rwa [decodeDigits_decDigits, decodeDigits_decDigits] at this

lemma dash_not_mem_decDigits (n : Nat) : '-' ∉ decDigits n := by
  induction n using Nat.strong_induction_on with
  | _ n ih =>
    rw [decDigits_eq]
    split
    · rename_i h
      simp only [List.mem_singleton]
      exact fun hc => digitChar_ne_dash n h hc.symm
    · rename_i h
      intro hmem
      rcases List.mem_append.mp hmem with h1 | h2
      · exact ih (n / 10) (Nat.div_lt_self (by omega) (by omega)) h1
      · exact digitChar_ne_dash (n % 10) (Nat.mod_lt n (by omega))
          (List.mem_singleton.mp h2).symm

/-- Splitting a list at a separator that occurs in neither left part is unambiguous. -/
lemma append_sep_inj (c : Char) :
    ∀ (l₁ l₂ r₁ r₂ : List Char), c ∉ l₁ → c ∉ l₂ →
      l₁ ++ c :: r₁ = l₂ ++ c :: r₂ → l₁ = l₂ ∧ r₁ = r₂ := by
  intro l₁
  induction l₁ with
  | nil =>
    intro l₂ r₁ r₂ _ hc₂ h
    cases l₂ with
    | nil => simpa using h
    | cons y ys =>
      simp only [List.nil_append, List.cons_append, List.cons.injEq] at h
      exact absurd (h.1 ▸ List.mem_cons_self y ys) (h.1 ▸ hc₂)
  | cons x xs ih =>
    intro l₂ r₁ r₂ hc₁ hc₂ h
    cases l₂ with
    | nil =>
      simp only [List.cons_append, List.nil_append, List.cons.injEq] at h
      exact absurd (h.1 ▸ List.mem_cons_self x xs) (fun hx => hc₁ (h.1 ▸ hx))
    | cons y ys =>
      simp only [List.cons_append, List.cons.injEq] at h
      obtain ⟨hxy, htail⟩ := h
      have hrec := ih ys r₁ r₂ (fun hm => hc₁ (List.mem_cons_of_mem x hm))
        (fun hm => hc₂ (List.mem_cons_of_mem y hm)) htail
      exact ⟨by rw [hxy, hrec.1], hrec.2⟩

/-- Correlation-id generator (src/types/index.ts:507-509):
`` `deck-${++this.msgCounter}-${Date.now()}` ``; `counter` is the
pre-incremented message counter and `time` the current clock value. -/
def nextId (counter time : Nat) : String :=
  "deck-" ++ decRepr counter ++ "-" ++ decRepr time

lemma nextId_data (c t : Nat) :
    (nextId c t).data = "deck-".data ++ (decDigits c ++ '-' :: decDigits t) := by
  show ((("deck-" ++ decRepr c) ++ "-") ++ decRepr t).data = _
  simp only [String.data_append]
  show ("deck-".data ++ decDigits c ++ ['-']) ++ decDigits t = _
  simp [List.append_assoc]

/-- Distinct counters (or distinct timestamps) give distinct correlation ids. -/
lemma nextId_inj {c₁ t₁ c₂ t₂ : Nat} (h : nextId c₁ t₁ = nextId c₂ t₂) :
    c₁ = c₂ ∧ t₁ = t₂ := by
  have hdata := congrArg String.data h
  rw [nextId_data, nextId_data] at hdata
  have hmid := List.append_cancel_left hdata
  have := append_sep_inj '-' (decDigits c₁) (decDigits c₂) (decDigits t₁) (decDigits t₂)
    (dash_not_mem_decDigits c₁) (dash_not_mem_decDigits c₂) hmid
  exact ⟨decDigits_inj this.1, decDigits_inj this.2⟩

/- ## Strings: JavaScript `String.prototype.includes`

Used by `performHandshake` (src/types/index.ts:482):
`message.includes("pairing required")`. -/

/-- `listStartsWith pat l`: `l` begins with `pat`. -/
def listStartsWith : List Char → List Char → Bool
  | [], _ => true
  | _ :: _, [] => false
  | p :: ps, c :: cs => p == c && listStartsWith ps cs

/-- `listContainsSub pat l`: `pat` occurs contiguously inside `l`. -/
def listContainsSub : List Char → List Char → Bool
  | pat, [] => listStartsWith pat []
  | pat, c :: cs => listStartsWith pat (c :: cs) || listContainsSub pat cs

/-- JS `s.includes(pat)`. -/
def strIncludes (s pat : String) : Bool := listContainsSub pat.data s.data

lemma listStartsWith_append (pat rest : List Char) :
    listStartsWith pat (pat ++ rest) = true := by
  induction pat with
  | nil => rfl
  | cons p ps ih => simp [listStartsWith, ih]

lemma listContainsSub_append_self (pat rest : List Char) :
    listContainsSub pat (pat ++ rest) = true := by
  cases pat with
  | nil =>
    cases rest with
    | nil => rfl
    | cons c cs => simp [listContainsSub, listStartsWith]
  | cons p ps =>
    have h := listStartsWith_append (p :: ps) rest
    show listContainsSub (p :: ps) (p :: (ps ++ rest)) = true
    rw [listContainsSub]
    rw [show p :: (ps ++ rest) = (p :: ps) ++ rest from rfl, h]
    rfl

lemma listContainsSub_append_left (pre pat rest : List Char) :
    listContainsSub pat (pre ++ (pat ++ rest)) = true := by
  induction pre with
  | nil => simpa using listContainsSub_append_self pat rest
  | cons c cs ih =>
    show listContainsSub pat (c :: (cs ++ (pat ++ rest))) = true
    rw [listContainsSub, ih]
    simp

/-- A string that embeds `pat` between two other pieces `includes` `pat`. -/
lemma strIncludes_embedded (pre pat suf : String) :
    strIncludes (pre ++ pat ++ suf) pat = true := by
  show listContainsSub pat.data ((pre ++ pat ++ suf)).data = true
  simp only [String.data_append]
  rw [List.append_assoc]
  exact listContainsSub_append_left pre.data pat.data suf.data

/- ## Wire data model (src/types/index.ts:1-29)

Frame payloads (`payload?: unknown`, `params?: Record<string, unknown>`) are
JSON values; `JVal` embeds them.  Optional payloads arrive as `JVal.null`
(JS `undefined` and `null` are both falsy and both absent-ish; the client
never distinguishes them). -/

/-- A JSON value, as carried in frame payloads. -/
inductive JVal where
  | null
  | jbool (b : Bool)
  | jnum (n : Int)
  | jstr (s : String)
  | jobj (fields : List (String × JVal))

/-- JS truthiness of a JSON value (`if (nonce)`, src/types/index.ts:422). -/
def truthy : JVal → Bool
  | .null => false
  | .jbool b => b
  | .jnum n => n != 0
  | .jstr s => s != ""
  | .jobj _ => true

/-- JS property access `obj?.k` on a JSON value: `none` when the value is not
an object or lacks the property. -/
def getField (v : JVal) (k : String) : Option JVal :=
  match v with
  | .jobj fields =>
    match fields.find? (fun kv => kv.1 == k) with
    | some kv => some kv.2
    | none => none
  | _ => none

/-- The `error` member of a response frame (src/types/index.ts:17). -/
structure ResErrorInfo where
  code : String
  message : String

/-- A gateway wire frame (src/types/index.ts:4-29).  `seq`/`stateVersion` of
event frames are never read by the client and are omitted. -/
inductive Frame where
  | req (id method : String) (params : JVal)
  | res (id : String) (ok : Bool) (payload : JVal) (error : Option ResErrorInfo)
  | event (event : String) (payload : JVal)

/-- Terminal outcome of one `request()` promise. -/
inductive RpcOutcome where
  /-- `resolve(res.payload)` — matching response with `ok: true` (line 259). -/
  | success (payload : JVal)
  /-- `reject(res.error?.message ?? ...)` — matching response with `ok: false`
  (lines 261-263). -/
  | failed (message : String)
  /-- `reject(Error(\x60Request (method) timed out\x60))` — deadline elapsed
  (lines 249-252). -/
  | timedOut (method : String)
  /-- `reject(Error("Connection closed"))` — transport closed (lines 391-393). -/
  | closed

/-- The message carried by the rejection error of each failing outcome. -/
def rejectionMessage : RpcOutcome → Option String
  | .success _ => none
  | .failed m => some m
  | .timedOut method => some ("Request " ++ method ++ " timed out")
  | .closed => some "Connection closed"

/-- Externally observable actions of the client code. -/
inductive Eff where
  /-- The promise of request `id` settles with outcome `o`. -/
  | settle (id : String) (o : RpcOutcome)
  /-- `options.onEvent(frame)` (line 429). -/
  | emitEvent (f : Frame)
  /-- `options.onConnection(b)` (lines 387, 474). -/
  | onConnection (b : Bool)
  /-- `options.onPairingRequired(b)` (lines 471, 483). -/
  | onPairingRequired (b : Bool)
  /-- The handshake's `waitForChallenge` promise resolves with `nonce` (line 424). -/
  | challengeResolved (nonce : JVal)
  /-- `ws.send(JSON.stringify(frame))` (line 503). -/
  | wsSend (f : Frame)
  /-- `setTimeout` arming the per-request deadline of `id` (lines 249-252). -/
  | armTimeout (id : String) (ms : Nat)
  /-- `setTimeout` arming the reconnect timer for `delayMs` (lines 526-529). -/
  | scheduleTimer (delayMs : Nat)
  /-- `storeDeviceToken(tok)` persisting an issued device token (lines 466-469). -/
  | storeDeviceToken (tok : String)
  /-- `ws.close(code, reason)` (lines 231, 497). -/
  | wsClose (code : Nat) (reason : String)
  /-- `console.error(...)` (line 513 among others). -/
  | logError (msg : String)
  /-- `request()` threw synchronously (its promise rejects, line 243). -/
  | reqError (msg : String)

/- ## Pending-request table (src/types/index.ts:157-161, 192)

`pending: Map<string, PendingRequest>` becomes an association list with the
JS `Map` semantics: `set` updates in place or appends, `delete` removes the
key, iteration follows list order. -/

/-- What the client remembers about an in-flight request (the `method` is
captured by the closures of src/types/index.ts:248-272). -/
structure PendingEntry where
  method : String
  deriving DecidableEq

/-- The pending table. -/
abbrev Pending := List (String × PendingEntry)

/-- JS `Map.get`. -/
def pendingLookup : Pending → String → Option PendingEntry
  | [], _ => none
  | (k, e) :: rest, id => if k = id then some e else pendingLookup rest id

/-- JS `Map.set`: replace in place, else append. -/
def pendingSet : Pending → String → PendingEntry → Pending
  | [], id, e => [(id, e)]
  | (k, x) :: rest, id, e =>
    if k = id then (k, e) :: rest else (k, x) :: pendingSet rest id e

/-- JS `Map.delete`. -/
def pendingErase : Pending → String → Pending
  | [], _ => []
  | (k, x) :: rest, id =>
    if k = id then pendingErase rest id else (k, x) :: pendingErase rest id

/- ## Client options and state -/

/-- The options record accepted by the constructor
(src/types/index.ts:163-178); absent members are `none`. -/
structure GatewayClientOptions where
  url : String
  token : Option String
  maxReconnectAttempts : Option Nat
  reconnectBaseDelay : Option Nat
  requestTimeout : Option Nat

/-- Options after the constructor's defaulting (src/types/index.ts:201-212).
`maxReconnectAttempts = none` models the `Infinity` default. -/
structure ResolvedOptions where
  url : String
  token : String
  maxReconnectAttempts : Option Nat
  reconnectBaseDelay : Nat
  requestTimeout : Nat

/-- The constructor's `??`-defaulting (src/types/index.ts:201-212). -/
def resolveOptions (o : GatewayClientOptions) : ResolvedOptions :=
  { url := o.url
    token := o.token.getD ""
    maxReconnectAttempts := o.maxReconnectAttempts
    reconnectBaseDelay := o.reconnectBaseDelay.getD 1000
    requestTimeout := o.requestTimeout.getD 30000 }

/-- The mutable fields of `GatewayClient` (src/types/index.ts:190-199).
`wsOpen` is "`this.ws` exists and `readyState === OPEN`"; `challengeWaiting`
is "`this.challengeResolve !== null`" (a resolver callback is parked);
`reconnectTimer` is "`this.reconnectTimer !== null`". -/
structure CState where
  wsOpen : Bool
  connected : Bool
  intentionalClose : Bool
  pending : Pending
  reconnectAttempts : Nat
  reconnectTimer : Bool
  msgCounter : Nat
  challengeNonce : Option JVal
  challengeWaiting : Bool

/-- Field initializers of a freshly constructed client (src/types/index.ts:190-199). -/
def initialState : CState :=
  { wsOpen := false
    connected := false
    intentionalClose := false
    pending := []
    reconnectAttempts := 0
    reconnectTimer := false
    msgCounter := 0
    challengeNonce := none
    challengeWaiting := false }

/- ## Operations, one per code path -/

/-- `attempts >= this.options.maxReconnectAttempts` (src/types/index.ts:512);
with the `Infinity` default the comparison is always false. -/
def maxedOut (opts : ResolvedOptions) (attempts : Nat) : Bool :=
  match opts.maxReconnectAttempts with
  | none => false
  | some m => attempts ≥ m

/-- `Math.min(base * Math.pow(2, attempt), 30_000)` (src/types/index.ts:517-520). -/
def reconnectDelay (base attempt : Nat) : Nat :=
  min (base * 2 ^ attempt) 30000

/-- `scheduleReconnect` (src/types/index.ts:511-530).  The armed timer's later
firing is the separate `ClientEvent.reconnectFire`. -/
def scheduleReconnect (opts : ResolvedOptions) (s : CState) : CState × List Eff :=
  if maxedOut opts s.reconnectAttempts then
    (s, [.logError "Max reconnect attempts reached"])
  else
    ({ s with reconnectTimer := true },
     [.scheduleTimer (reconnectDelay opts.reconnectBaseDelay s.reconnectAttempts)])

/-- `createSocket` (src/types/index.ts:355-371): reset challenge state and
open a fresh socket (CONNECTING, so not yet `wsOpen`).  The `onopen` callback
is the separate `ClientEvent.socketOpened`. -/
def createSocketOp (s : CState) : CState × List Eff :=
  ({ s with challengeNonce := none, challengeWaiting := false, wsOpen := false }, [])

/-- `connect()` (src/types/index.ts:219-222). -/
def connectOp (s : CState) : CState × List Eff :=
  createSocketOp { s with intentionalClose := false }

/-- `disconnect()` (src/types/index.ts:225-232). -/
def disconnectOp (s : CState) : CState × List Eff :=
  ({ s with intentionalClose := true, reconnectTimer := false },
   [.wsClose 1000 "client disconnect"])

/-- The `ws.onopen` callback (src/types/index.ts:368-371), which starts
`performHandshake`; the handshake synchronously enters `waitForChallenge`
(src/types/index.ts:556-575): an already stored nonce is consumed, otherwise a
resolver is parked (`challengeWaiting`). -/
def onOpenOp (s : CState) : CState × List Eff :=
  let s₁ := { s with wsOpen := true }
  match s₁.challengeNonce with
  | some _ => ({ s₁ with challengeNonce := none }, [])
  | none => ({ s₁ with challengeWaiting := true }, [])

/-- `handleFrame` (src/types/index.ts:409-435). -/
def handleFrame (s : CState) (f : Frame) : CState × List Eff :=
  match f with
  | .req _ _ _ => (s, [])
  | .res id ok payload error =>
    match pendingLookup s.pending id with
    | none => (s, [])
    | some entry =>
      ({ s with pending := pendingErase s.pending id },
       [.settle id (if ok then .success payload
                    else .failed (match error with
                                  | some e => e.message
                                  | none => "Request " ++ entry.method ++ " failed"))])
  | .event name payload =>
    if name = "connect.challenge" ∧ s.challengeWaiting = true then
      match getField payload "nonce" with
      | some v =>
        if truthy v then
          ({ s with challengeNonce := some v, challengeWaiting := false },
           [.challengeResolved v])
        else (s, [.emitEvent f])
      | none => (s, [.emitEvent f])
    else (s, [.emitEvent f])

/-- The per-request deadline timer of `id` fires (src/types/index.ts:249-252).
A cleared timer never fires; the timer is cleared exactly when the entry
leaves the table, so a firing with no entry is a no-op. -/
def requestTimeoutFire (s : CState) (id : String) : CState × List Eff :=
  match pendingLookup s.pending id with
  | none => (s, [])
  | some entry =>
    ({ s with pending := pendingErase s.pending id },
     [.settle id (.timedOut entry.method)])

/-- The `ws.onclose` callback (src/types/index.ts:382-402). -/
def onCloseOp (opts : ResolvedOptions) (s : CState) : CState × List Eff :=
  let wasConnected := s.connected
  let s₁ := { s with connected := false, wsOpen := false }
  let connEffs := if wasConnected then [Eff.onConnection false] else []
  let rejectEffs := s₁.pending.map (fun kv => Eff.settle kv.1 .closed)
  let s₂ := { s₁ with pending := [] }
  if s₂.intentionalClose then (s₂, connEffs ++ rejectEffs)
  else
    let (s₃, schedEffs) := scheduleReconnect opts s₂
    (s₃, connEffs ++ rejectEffs ++ schedEffs)

/-- The reconnect timer fires (src/types/index.ts:526-529): increment the
attempt counter, then `createSocket`. -/
def reconnectTimerFire (s : CState) : CState × List Eff :=
  createSocketOp { s with reconnectAttempts := s.reconnectAttempts + 1,
                          reconnectTimer := false }

/-- `request(method, params)` (src/types/index.ts:238-276).  `time` is the
`Date.now()` sample used in the correlation id.  When the socket is not open
the method throws (its promise rejects, `Eff.reqError`); otherwise the
deadline timer is armed, the entry is stored and the frame transmitted. -/
def requestOp (opts : ResolvedOptions) (s : CState) (method : String)
    (params : Option JVal) (time : Nat) : CState × List Eff :=
  if s.wsOpen = false then
    (s, [.reqError "Gateway not connected"])
  else
    let id := nextId (s.msgCounter + 1) time
    ({ s with msgCounter := s.msgCounter + 1,
              pending := pendingSet s.pending id { method := method } },
     [.armTimeout id opts.requestTimeout,
      .wsSend (.req id method (params.getD (.jobj [])))])

/-- One handshake cycle's terminal result: the settlement of the awaited
chain in `performHandshake` (src/types/index.ts:437-499) — either the
`connect` request resolved (`success`, with the optionally issued device
token) or some awaited step rejected with an error message (`failure`). -/
inductive HsResult where
  | success (deviceToken : Option String)
  | failure (message : String)

/-- The continuation of `performHandshake` after its awaited chain settles
(src/types/index.ts:449-498).  On success: persist an issued device token,
notify pairing cleared, mark connected, zero the attempt counter, notify
connection up.  On a failure whose message contains "pairing required":
notify pairing, reset challenge state and re-enter `waitForChallenge`
(the recursive call parks a fresh resolver).  On any other failure: close the
socket with code 4001. -/
def handshakeOutcome (s : CState) (r : HsResult) : CState × List Eff :=
  match r with
  | .success tok =>
    let tokEffs := match tok with
      | some t => [Eff.storeDeviceToken t]
      | none => []
    ({ s with connected := true, reconnectAttempts := 0 },
     tokEffs ++ [.onPairingRequired false, .onConnection true])
  | .failure msg =>
    if strIncludes msg "pairing required" then
      ({ s with challengeNonce := none, challengeWaiting := true },
       [.onPairingRequired true])
    else
      (s, [.logError "Handshake failed", .wsClose 4001 "handshake failed"])

/- ## The event-level step function -/

/-- One asynchronous occurrence delivered to the client: a public call, a
socket callback, a timer firing, or the handshake continuation resuming. -/
inductive ClientEvent where
  | connect
  | disconnect
  | sendRequest (method : String) (params : Option JVal) (time : Nat)
  | socketOpened
  | frame (f : Frame)
  | reqTimeout (id : String)
  | socketClosed
  | reconnectFire
  | hsOutcome (r : HsResult)

/-- Dispatch one event to the code path that handles it. -/
def step (opts : ResolvedOptions) (s : CState) (e : ClientEvent) : CState × List Eff :=
  match e with
  | .connect => connectOp s
  | .disconnect => disconnectOp s
  | .sendRequest method params time => requestOp opts s method params time
  | .socketOpened => onOpenOp s
  | .frame f => handleFrame s f
  | .reqTimeout id => requestTimeoutFire s id
  | .socketClosed => onCloseOp opts s
  | .reconnectFire => reconnectTimerFire s
  | .hsOutcome r => handshakeOutcome s r

/-- Run a sequence of events, collecting all effects in order. -/
def run (opts : ResolvedOptions) (s : CState) : List ClientEvent → CState × List Eff
  | [] => (s, [])
  | e :: rest =>
    let p := step opts s e
    let q := run opts p.1 rest
    (q.1, p.2 ++ q.2)

/- ## Counting settlements and pending entries -/

/-- Does this effect settle the promise of request `id`? -/
def isSettleFor (id : String) : Eff → Bool
  | .settle i _ => i == id
  | _ => false

/-- How many effects in `effs` settle the promise of request `id`. -/
def settleCount (effs : List Eff) (id : String) : Nat :=
  (effs.filter (isSettleFor id)).length

/-- How many entries of the pending table carry key `id`. -/
def pendCount (p : Pending) (id : String) : Nat :=
  (p.filter (fun kv => kv.1 == id)).length

lemma settleCount_append (a b : List Eff) (id : String) :
    settleCount (a ++ b) id = settleCount a id + settleCount b id := by
  unfold settleCount
  rw [List.filter_append, List.length_append]

lemma pendCount_nil (id : String) : pendCount [] id = 0 := rfl

lemma pendCount_cons (k : String) (e : PendingEntry) (rest : Pending) (id : String) :
    pendCount ((k, e) :: rest) id = (if k = id then 1 else 0) + pendCount rest id := by
  by_cases h : k = id <;> simp [pendCount, List.filter_cons, h] <;> omega

lemma settleCount_cons (eff : Eff) (rest : List Eff) (id : String) :
    settleCount (eff :: rest) id
      = (if isSettleFor id eff then 1 else 0) + settleCount rest id := by
  by_cases h : isSettleFor id eff = true <;>
    simp [settleCount, List.filter_cons, h] <;> omega

lemma pendCount_set_le (p : Pending) (k : String) (e : PendingEntry) (id : String) :
    pendCount (pendingSet p k e) id ≤ pendCount p id + 1 := by
  induction p with
  | nil =>
    show pendCount [(k, e)] id ≤ pendCount [] id + 1
    rw [pendCount_cons]
    split <;> simp [pendCount_nil]
  | cons kv rest ih =>
    obtain ⟨k', e'⟩ := kv
    by_cases h : k' = k
    · subst h
      show pendCount (if k' = k' then (k', e) :: rest else _) id ≤ _
      rw [if_pos rfl, pendCount_cons, pendCount_cons]
      omega
    · show pendCount (if k' = k then _ else (k', e') :: pendingSet rest k e) id ≤ _
      rw [if_neg h, pendCount_cons, pendCount_cons]
      omega

lemma pendCount_set_other (p : Pending) (k : String) (e : PendingEntry) (id : String)
    (hne : k ≠ id) : pendCount (pendingSet p k e) id = pendCount p id := by
  induction p with
  | nil =>
    show pendCount [(k, e)] id = pendCount [] id
    rw [pendCount_cons, if_neg hne]
    omega
  | cons kv rest ih =>
    obtain ⟨k', e'⟩ := kv
    by_cases h : k' = k
    · subst h
      show pendCount (if k' = k' then (k', e) :: rest else _) id = _
      rw [if_pos rfl, pendCount_cons, pendCount_cons]
    · show pendCount (if k' = k then _ else (k', e') :: pendingSet rest k e) id = _
      rw [if_neg h, pendCount_cons, pendCount_cons, ih]

lemma pendCount_erase_self (p : Pending) (id : String) :
    pendCount (pendingErase p id) id = 0 := by
  induction p with
  | nil => rfl
  | cons kv rest ih =>
    obtain ⟨k, e⟩ := kv
    by_cases h : k = id
    · show pendCount (if k = id then pendingErase rest id else _) id = 0
      rw [if_pos h]
      exact ih
    · show pendCount (if k = id then _ else (k, e) :: pendingErase rest id) id = 0
      rw [if_neg h, pendCount_cons, if_neg h, ih]

lemma pendCount_erase_other (p : Pending) (k id : String) (hne : k ≠ id) :
    pendCount (pendingErase p k) id = pendCount p id := by
  induction p with
  | nil => rfl
  | cons kv rest ih =>
    obtain ⟨k', e'⟩ := kv
    by_cases h : k' = k
    · subst h
      show pendCount (if k' = k' then pendingErase rest k' else _) id = _
      rw [if_pos rfl, pendCount_cons, if_neg hne, ih]
      omega
    · show pendCount (if k' = k then _ else (k', e') :: pendingErase rest k) id = _
      rw [if_neg h, pendCount_cons, pendCount_cons, ih]

lemma pendingLookup_some_pos (p : Pending) (id : String) (e : PendingEntry)
    (h : pendingLookup p id = some e) : 1 ≤ pendCount p id := by
  induction p with
  | nil => simp [pendingLookup] at h
  | cons kv rest ih =>
    obtain ⟨k, e'⟩ := kv
    rw [pendCount_cons]
    by_cases hk : k = id
    · rw [if_pos hk]
      omega
    · simp only [pendingLookup, if_neg hk] at h
      have := ih h
      omega

lemma settleCount_map_closed (p : Pending) (id : String) :
    settleCount (p.map (fun kv => Eff.settle kv.1 .closed)) id = pendCount p id := by
  induction p with
  | nil => rfl
  | cons kv rest ih =>
    obtain ⟨k, e⟩ := kv
    show settleCount (Eff.settle k .closed :: _) id = _
    rw [settleCount_cons, pendCount_cons, ih]
    by_cases h : k = id <;> simp [isSettleFor, h]

/- ## Per-id allocation discipline -/

/-- `id` can no longer be allocated once the message counter has reached `mc`:
every decomposition of `id` as a generated correlation id uses a counter
value `≤ mc`. -/
def spentAt (mc : Nat) (id : String) : Prop :=
  ∀ c t, id = nextId c t → c ≤ mc

/-- The step on event `e` from state `s` allocates exactly the id
`nextId (msgCounter+1) time` — and only for an accepted `sendRequest`. -/
def registersId (s : CState) (e : ClientEvent) (id : String) : Bool :=
  match e with
  | .sendRequest _ _ t => s.wsOpen && (id == nextId (s.msgCounter + 1) t)
  | _ => false

lemma spentAt_mono {mc mc' : Nat} {id : String} (h : spentAt mc id) (hle : mc ≤ mc') :
    spentAt mc' id :=
  fun c t hid => le_trans (h c t hid) hle

lemma step_counter_mono (opts : ResolvedOptions) (s : CState) (e : ClientEvent) :
    s.msgCounter ≤ (step opts s e).1.msgCounter := by
  cases e with
  | connect => simp [step, connectOp, createSocketOp]
  | disconnect => simp [step, disconnectOp]
  | sendRequest m p t =>
    simp only [step, requestOp]
    split <;> simp
  | socketOpened =>
    simp only [step, onOpenOp]
    split <;> simp
  | frame f =>
    cases f with
    | req _ _ _ => simp [step, handleFrame]
    | res id ok payload error =>
      simp only [step, handleFrame]
      split <;> simp
    | event name payload =>
      simp only [step, handleFrame]
      split
      · split
        · split <;> simp
        · simp
      · simp
  | reqTimeout id =>
    simp only [step, requestTimeoutFire]
    split <;> simp
  | socketClosed =>
    simp only [step, onCloseOp]
    split
    · simp
    · simp only [scheduleReconnect]
      split <;> simp
  | reconnectFire => simp [step, reconnectTimerFire, createSocketOp]
  | hsOutcome r =>
    cases r with
    | success tok => simp [step, handshakeOutcome]
    | failure msg =>
      simp only [step, handshakeOutcome]
      split <;> simp

lemma spent_not_register {s : CState} {e : ClientEvent} {id : String}
    (h : spentAt s.msgCounter id) : registersId s e id = false := by
  cases e with
  | sendRequest m p t =>
    simp only [registersId, Bool.and_eq_false_iff]
    by_cases hid : id = nextId (s.msgCounter + 1) t
    · exact absurd (h (s.msgCounter + 1) t hid) (by omega)
    · right
      simpa using hid
  | connect => rfl
  | disconnect => rfl
  | socketOpened => rfl
  | frame f => rfl
  | reqTimeout i => rfl
  | socketClosed => rfl
  | reconnectFire => rfl
  | hsOutcome r => rfl

lemma register_spent {opts : ResolvedOptions} {s : CState} {e : ClientEvent} {id : String}
    (h : registersId s e id = true) : spentAt (step opts s e).1.msgCounter id := by
  cases e with
  | sendRequest m p t =>
    simp only [registersId, Bool.and_eq_true, beq_iff_eq] at h
    obtain ⟨hopen, hid⟩ := h
    intro c t' hid'
    have heq : nextId c t' = nextId (s.msgCounter + 1) t := by rw [← hid', ← hid]
    have := (nextId_inj heq).1
    subst this
    simp only [step, requestOp, hopen]
    simp
  | connect => simp [registersId] at h
  | disconnect => simp [registersId] at h
  | socketOpened => simp [registersId] at h
  | frame f => simp [registersId] at h
  | reqTimeout i => simp [registersId] at h
  | socketClosed => simp [registersId] at h
  | reconnectFire => simp [registersId] at h
  | hsOutcome r => simp [registersId] at h

lemma settleCount_nil (id : String) : settleCount [] id = 0 := rfl

/-- A non-registering step can only settle ids out of the pending table:
settlements plus surviving entries never exceed the entries before. -/
lemma step_settle_bound (opts : ResolvedOptions) (s : CState) (e : ClientEvent)
    (id : String) (h : registersId s e id = false) :
    settleCount (step opts s e).2 id + pendCount (step opts s e).1.pending id
      ≤ pendCount s.pending id := by
  cases e with
  | connect => simp [step, connectOp, createSocketOp, settleCount]
  | disconnect => simp [step, disconnectOp, settleCount, List.filter_cons, isSettleFor]
  | sendRequest m p t =>
    simp only [step, requestOp]
    by_cases hw : s.wsOpen = false
    · rw [if_pos hw]
      simp [settleCount, List.filter_cons, isSettleFor]
    · rw [if_neg hw]
      have hopen : s.wsOpen = true := by
        cases hb : s.wsOpen
        · exact absurd hb hw
        · rfl
      have hid : id ≠ nextId (s.msgCounter + 1) t := by
        intro hcontra
        rw [registersId, hopen, hcontra] at h
        simp at h
      have := pendCount_set_other s.pending (nextId (s.msgCounter + 1) t)
        { method := m } id (fun hc => hid hc.symm)
      simp [settleCount, List.filter_cons, isSettleFor, this]
  | socketOpened =>
    simp only [step, onOpenOp]
    split <;> simp [settleCount]
  | frame f =>
    cases f with
    | req i m p => simp [step, handleFrame, settleCount]
    | event n p =>
      simp only [step, handleFrame]
      split
      · split
        · split
          · simp [settleCount, List.filter_cons, isSettleFor]
          · simp [settleCount, List.filter_cons, isSettleFor]
        · simp [settleCount, List.filter_cons, isSettleFor]
      · simp [settleCount, List.filter_cons, isSettleFor]
    | res rid ok pl er =>
      simp only [step, handleFrame]
      cases hl : pendingLookup s.pending rid with
      | none => simp [settleCount]
      | some entry =>
        simp only [hl]
        by_cases hid : rid = id
        · subst hid
          have h1 := pendingLookup_some_pos _ _ _ hl
          have h2 := pendCount_erase_self s.pending rid
          simp only [settleCount_cons, settleCount_nil, isSettleFor, h2]
          simp
          omega
        · have h2 := pendCount_erase_other s.pending rid id hid
          simp only [settleCount_cons, settleCount_nil, isSettleFor, h2]
          simp [hid]
  | reqTimeout rid =>
    simp only [step, requestTimeoutFire]
    cases hl : pendingLookup s.pending rid with
    | none => simp [settleCount]
    | some entry =>
      simp only [hl]
      by_cases hid : rid = id
      · subst hid
        have h1 := pendingLookup_some_pos _ _ _ hl
        have h2 := pendCount_erase_self s.pending rid
        simp only [settleCount_cons, settleCount_nil, isSettleFor, h2]
        simp
        omega
      · have h2 := pendCount_erase_other s.pending rid id hid
        simp only [settleCount_cons, settleCount_nil, isSettleFor, h2]
        simp [hid]
  | socketClosed =>
    simp only [step, onCloseOp, scheduleReconnect]
    have hconn : settleCount (if s.connected = true then [Eff.onConnection false] else []) id
        = 0 := by
      split <;> simp [settleCount, List.filter_cons, isSettleFor]
    have hmap := settleCount_map_closed s.pending id
    by_cases hic : s.intentionalClose = true
    · rw [if_pos hic, settleCount_append, hconn, hmap]
      simp [pendCount_nil]
    · rw [if_neg hic]
      by_cases hmax : maxedOut opts s.reconnectAttempts = true
      · rw [if_pos hmax, settleCount_append, settleCount_append, hconn, hmap]
        simp [settleCount, List.filter_cons, isSettleFor, pendCount_nil]
      · rw [if_neg hmax, settleCount_append, settleCount_append, hconn, hmap]
        simp [settleCount, List.filter_cons, isSettleFor, pendCount_nil]
  | reconnectFire =>
    simp [step, reconnectTimerFire, createSocketOp, settleCount]
  | hsOutcome r =>
    cases r with
    | success tok =>
      cases tok <;>
        simp [step, handshakeOutcome, settleCount, List.filter_cons, isSettleFor]
    | failure msg =>
      simp only [step, handshakeOutcome]
      split <;> simp [settleCount, List.filter_cons, isSettleFor]

/-- An accepted `sendRequest` settles nothing itself and adds at most one
entry for any fixed id. -/
lemma step_register_bound (opts : ResolvedOptions) (s : CState) (m : String)
    (p : Option JVal) (t : Nat) (id : String) (hopen : s.wsOpen = true) :
    settleCount (step opts s (.sendRequest m p t)).2 id = 0 ∧
    pendCount (step opts s (.sendRequest m p t)).1.pending id
      ≤ pendCount s.pending id + 1 := by
  simp only [step, requestOp, hopen]
  refine ⟨by simp [settleCount, List.filter_cons, isSettleFor], ?_⟩
  simpa using pendCount_set_le s.pending (nextId (s.msgCounter + 1) t) { method := m } id

/-- Trace-level settlement bound: along any event sequence, the promise of a
given correlation id settles at most once more than the number of entries it
already has in the pending table (and, once the id can no longer be
allocated, at most that number of times). -/
lemma run_settle_bound (events : List ClientEvent) (opts : ResolvedOptions)
    (s : CState) (id : String) :
    (spentAt s.msgCounter id →
      settleCount (run opts s events).2 id ≤ pendCount s.pending id) ∧
    settleCount (run opts s events).2 id ≤ pendCount s.pending id + 1 := by
  induction events generalizing s with
  | nil => exact ⟨fun _ => by simp [run, settleCount], by simp [run, settleCount]⟩
  | cons e rest ih =>
    have hrun : (run opts s (e :: rest)).2
        = (step opts s e).2 ++ (run opts (step opts s e).1 rest).2 := rfl
    constructor
    · intro hspent
      have hreg : registersId s e id = false := spent_not_register hspent
      have hb := step_settle_bound opts s e id hreg
      have hspent' : spentAt (step opts s e).1.msgCounter id :=
        spentAt_mono hspent (step_counter_mono opts s e)
      have hrest := (ih (step opts s e).1).1 hspent'
      rw [hrun, settleCount_append]
      omega
    · cases hreg : registersId s e id with
      | false =>
        have hb := step_settle_bound opts s e id hreg
        have hrest := (ih (step opts s e).1).2
        rw [hrun, settleCount_append]
        omega
      | true =>
        cases e with
        | sendRequest m p t =>
          have hopen : s.wsOpen = true := by
            rw [registersId] at hreg
            exact (Bool.and_eq_true .. ▸ hreg).1
          have hb := step_register_bound opts s m p t id hopen
          have hspent' : spentAt (step opts s (.sendRequest m p t)).1.msgCounter id :=
            register_spent hreg
          have hrest := (ih (step opts s (.sendRequest m p t)).1).1 hspent'
          rw [hrun, settleCount_append]
          omega
        | connect => simp [registersId] at hreg
        | disconnect => simp [registersId] at hreg
        | socketOpened => simp [registersId] at hreg
        | frame f => simp [registersId] at hreg
        | reqTimeout i => simp [registersId] at hreg
        | socketClosed => simp [registersId] at hreg
        | reconnectFire => simp [registersId] at hreg
        | hsOutcome r => simp [registersId] at hreg

/- ## The possible shapes of a settlement -/

/-- What kind of event can settle the promise of `id` with outcome `o`:
a matching response frame (success or server failure), that request's own
deadline timer, or the transport closing. -/
def settleShape (e : ClientEvent) (id : String) (o : RpcOutcome) : Prop :=
  (∃ p err, e = .frame (.res id true p err) ∧ o = .success p) ∨
  (∃ p err m, e = .frame (.res id false p err) ∧ o = .failed m) ∨
  (∃ m, e = .reqTimeout id ∧ o = .timedOut m) ∨
  (e = .socketClosed ∧ o = .closed)

lemma step_settle_shape (opts : ResolvedOptions) (s : CState) (e : ClientEvent)
    (id : String) (o : RpcOutcome) (h : Eff.settle id o ∈ (step opts s e).2) :
    settleShape e id o := by
  cases e with
  | connect => simp [step, connectOp, createSocketOp] at h
  | disconnect => simp [step, disconnectOp] at h
  | sendRequest m p t =>
    simp only [step, requestOp] at h
    split at h <;> simp at h
  | socketOpened =>
    simp only [step, onOpenOp] at h
    split at h <;> simp at h
  | frame f =>
    cases f with
    | req i m p => simp [step, handleFrame] at h
    | event n p =>
      simp only [step, handleFrame] at h
      split at h
      · split at h
        · split at h <;> simp at h
        · simp at h
      · simp at h
    | res rid ok pl er =>
      simp only [step, handleFrame] at h
      cases hl : pendingLookup s.pending rid with
      | none => rw [hl] at h; simp at h
      | some entry =>
        rw [hl] at h
        simp only [List.mem_singleton, Eff.settle.injEq] at h
        obtain ⟨hid, ho⟩ := h
        subst hid
        cases ok with
        | true =>
          simp only [if_pos rfl] at ho
          exact Or.inl ⟨pl, er, rfl, ho⟩
        | false =>
          simp only [Bool.false_eq_true, if_false] at ho
          exact Or.inr (Or.inl ⟨pl, er, _, rfl, ho⟩)
  | reqTimeout rid =>
    simp only [step, requestTimeoutFire] at h
    cases hl : pendingLookup s.pending rid with
    | none => rw [hl] at h; simp at h
    | some entry =>
      rw [hl] at h
      simp only [List.mem_singleton, Eff.settle.injEq] at h
      obtain ⟨hid, ho⟩ := h
      subst hid
      exact Or.inr (Or.inr (Or.inl ⟨entry.method, rfl, ho⟩))
  | socketClosed =>
    simp only [step, onCloseOp, scheduleReconnect] at h
    have hsettle : Eff.settle id o ∈
        (if s.connected = true then [Eff.onConnection false] else [])
          ++ s.pending.map (fun kv => Eff.settle kv.1 RpcOutcome.closed) →
        settleShape ClientEvent.socketClosed id o := by
      intro hmem
      rcases List.mem_append.mp hmem with hmem | hmem
      · split at hmem <;> simp at hmem
      · rcases List.mem_map.mp hmem with ⟨kv, _, hkv⟩
        injection hkv with h1 h2
        exact Or.inr (Or.inr (Or.inr ⟨rfl, h2.symm⟩))
    by_cases hic : s.intentionalClose = true
    · rw [if_pos hic] at h
      exact hsettle h
    · rw [if_neg hic] at h
      by_cases hmax : maxedOut opts s.reconnectAttempts = true
      · rw [if_pos hmax] at h
        rcases List.mem_append.mp h with hmem | hmem
        · exact hsettle hmem
        · simp at hmem
      · rw [if_neg hmax] at h
        rcases List.mem_append.mp h with hmem | hmem
        · exact hsettle hmem
        · simp at hmem
  | reconnectFire => simp [step, reconnectTimerFire, createSocketOp] at h
  | hsOutcome r =>
    cases r with
    | success tok => cases tok <;> simp [step, handshakeOutcome] at h
    | failure msg =>
      simp only [step, handshakeOutcome] at h
      split at h <;> simp at h

lemma run_settle_shape (events : List ClientEvent) (opts : ResolvedOptions)
    (s : CState) (id : String) (o : RpcOutcome)
    (h : Eff.settle id o ∈ (run opts s events).2) :
    ∃ e, e ∈ events ∧ settleShape e id o := by
  induction events generalizing s with
  | nil => simp [run] at h
  | cons e rest ih =>
    have hrun : (run opts s (e :: rest)).2
        = (step opts s e).2 ++ (run opts (step opts s e).1 rest).2 := rfl
    rw [hrun] at h
    rcases List.mem_append.mp h with hmem | hmem
    · exact ⟨e, List.mem_cons_self e rest, step_settle_shape opts s e id o hmem⟩
    · obtain ⟨e', he', hshape⟩ := ih (step opts s e).1 hmem
      exact ⟨e', List.mem_cons_of_mem e he', hshape⟩

/- ## Further table lemmas -/

lemma pendingLookup_erase_self (p : Pending) (id : String) :
    pendingLookup (pendingErase p id) id = none := by
  induction p with
  | nil => rfl
  | cons kv rest ih =>
    obtain ⟨k, e⟩ := kv
    by_cases h : k = id
    · show pendingLookup (if k = id then pendingErase rest id else _) id = none
      rw [if_pos h]
      exact ih
    · show pendingLookup (if k = id then _ else (k, e) :: pendingErase rest id) id = none
      rw [if_neg h]
      show (if k = id then some e else pendingLookup (pendingErase rest id) id) = none
      rw [if_neg h]
      exact ih

lemma pendingLookup_set_self (p : Pending) (id : String) (e : PendingEntry) :
    pendingLookup (pendingSet p id e) id = some e := by
  induction p with
  | nil => simp [pendingSet, pendingLookup]
  | cons kv rest ih =>
    obtain ⟨k, x⟩ := kv
    by_cases h : k = id
    · show pendingLookup (if k = id then (k, e) :: rest else _) id = some e
      rw [if_pos h]
      show (if k = id then some e else _) = some e
      rw [if_pos h]
    · show pendingLookup (if k = id then _ else (k, x) :: pendingSet rest id e) id = some e
      rw [if_neg h]
      show (if k = id then some x else pendingLookup (pendingSet rest id e) id) = some e
      rw [if_neg h]
      exact ih

/- ## Attempt-counter lemmas -/

lemma maxedOut_mono (opts : ResolvedOptions) {a b : Nat}
    (h : maxedOut opts a = true) (hle : a ≤ b) : maxedOut opts b = true := by
  unfold maxedOut at h ⊢
  cases hm : opts.maxReconnectAttempts with
  | none => rw [hm] at h; exact h
  | some m =>
    rw [hm] at h
    simp only [decide_eq_true_eq] at h ⊢
    omega

/-- Only the reconnect timer firing raises and only a successful handshake
lowers the attempt counter. -/
lemma step_attempts_ge (opts : ResolvedOptions) (s : CState) (e : ClientEvent)
    (hne : ∀ tok, e ≠ ClientEvent.hsOutcome (HsResult.success tok)) :
    s.reconnectAttempts ≤ (step opts s e).1.reconnectAttempts := by
  cases e with
  | connect => simp [step, connectOp, createSocketOp]
  | disconnect => simp [step, disconnectOp]
  | sendRequest m p t =>
    simp only [step, requestOp]
    split <;> simp
  | socketOpened =>
    simp only [step, onOpenOp]
    split <;> simp
  | frame f =>
    cases f with
    | req _ _ _ => simp [step, handleFrame]
    | res id ok payload error =>
      simp only [step, handleFrame]
      split <;> simp
    | event name payload =>
      simp only [step, handleFrame]
      split
      · split
        · split <;> simp
        · simp
      · simp
  | reqTimeout id =>
    simp only [step, requestTimeoutFire]
    split <;> simp
  | socketClosed =>
    simp only [step, onCloseOp, scheduleReconnect]
    split
    · simp
    · split <;> simp
  | reconnectFire => simp [step, reconnectTimerFire, createSocketOp]
  | hsOutcome r =>
    cases r with
    | success tok => exact absurd rfl (hne tok)
    | failure msg =>
      simp only [step, handshakeOutcome]
      split <;> simp

/-- Once the scheduler is maxed out, no step (short of a successful
handshake) emits a reconnect-timer scheduling effect. -/
lemma step_no_timer (opts : ResolvedOptions) (s : CState) (e : ClientEvent)
    (hmax : maxedOut opts s.reconnectAttempts = true)
    (hne : ∀ tok, e ≠ ClientEvent.hsOutcome (HsResult.success tok)) :
    ∀ d, Eff.scheduleTimer d ∉ (step opts s e).2 := by
  intro d
  cases e with
  | connect => simp [step, connectOp, createSocketOp]
  | disconnect => simp [step, disconnectOp]
  | sendRequest m p t =>
    simp only [step, requestOp]
    split <;> simp
  | socketOpened =>
    simp only [step, onOpenOp]
    split <;> simp
  | frame f =>
    cases f with
    | req _ _ _ => simp [step, handleFrame]
    | res id ok payload error =>
      simp only [step, handleFrame]
      split <;> simp
    | event name payload =>
      simp only [step, handleFrame]
      split
      · split
        · split <;> simp
        · simp
      · simp
  | reqTimeout id =>
    simp only [step, requestTimeoutFire]
    split <;> simp
  | socketClosed =>
    simp only [step, onCloseOp, scheduleReconnect]
    by_cases hic : s.intentionalClose = true
    · rw [if_pos hic]
      simp
    · rw [if_neg hic, if_pos hmax]
      simp
  | reconnectFire => simp [step, reconnectTimerFire, createSocketOp]
  | hsOutcome r =>
    cases r with
    | success tok => exact absurd rfl (hne tok)
    | failure msg =>
      simp only [step, handshakeOutcome]
      split <;> simp

/- ## Handshake cycles (the pairing-required loop) -/

/-- The `performHandshake` recursion (src/types/index.ts:437-499) unrolled
over the results of successive cycles: a cycle whose failure message contains
"pairing required" re-enters the wait and consumes the next result; a success
or any other failure terminates the loop. -/
def runHandshakeCycles : CState → List HsResult → CState × List Eff
  | s, [] => (s, [])
  | s, r :: rest =>
    let p := handshakeOutcome s r
    match r with
    | .failure msg =>
      if strIncludes msg "pairing required" then
        let q := runHandshakeCycles p.1 rest
        (q.1, p.2 ++ q.2)
      else p
    | .success _ => p

/-- How many `onPairingRequired b` callback invocations `effs` contains. -/
def pairingCount (effs : List Eff) (b : Bool) : Nat :=
  (effs.filter (fun e => match e with
    | .onPairingRequired b' => b' == b
    | _ => false)).length

lemma pairingCount_append (a b : List Eff) (v : Bool) :
    pairingCount (a ++ b) v = pairingCount a v + pairingCount b v := by
  unfold pairingCount
  rw [List.filter_append, List.length_append]

/- ## Device-auth canonical payload (src/types/index.ts:186, 577-620, 671-699) -/

/-- `OPERATOR_SCOPES` (src/types/index.ts:186), in its declaration order. -/
def OPERATOR_SCOPES : List String :=
  ["operator.read", "operator.write", "operator.pairing"]

/-- The parameter record of `buildDeviceAuthPayload` (src/types/index.ts:671-681). -/
structure DeviceAuthParams where
  version : Option String
  deviceId : String
  clientId : String
  clientMode : String
  role : String
  scopes : List String
  signedAtMs : Nat
  token : Option String
  nonce : Option String

/-- `buildDeviceAuthPayload` (src/types/index.ts:671-699): pipe-join of the
ordered field list, scopes comma-joined as given, with the nonce appended as
a final field for the v2 variant. -/
def buildDeviceAuthPayload (params : DeviceAuthParams) : String :=
  let version := params.version.getD (if params.nonce.isSome then "v2" else "v1")
  let scopes := String.intercalate "," params.scopes
  let token := params.token.getD ""
  let base := [version, params.deviceId, params.clientId, params.clientMode,
               params.role, scopes, decRepr params.signedAtMs, token]
  let fields := if version = "v2" then base ++ [params.nonce.getD ""] else base
  String.intercalate "|" fields

/-- The exact invocation `buildSignedDeviceIdentity` makes
(src/types/index.ts:587-597): version "v2", the fixed client identity,
`OPERATOR_SCOPES`, and `getPreferredAuthToken() || null` as the token. -/
def buildSignedDeviceIdentityPayload (deviceId : String) (signedAt : Nat)
    (token : Option String) (nonce : String) : String :=
  buildDeviceAuthPayload
    { version := some "v2", deviceId := deviceId, clientId := "gateway-client",
      clientMode := "webchat", role := "operator", scopes := OPERATOR_SCOPES,
      signedAtMs := signedAt, token := token, nonce := some nonce }

/-- Byte-wise lexicographic comparison of strings (used only to state the
spec's "sorted scope list"). -/
def charListLe : List Char → List Char → Bool
  | [], _ => true
  | _ :: _, [] => false
  | a :: as, b :: bs =>
    if a.toNat < b.toNat then true
    else if b.toNat < a.toNat then false
    else charListLe as bs

/-- `a ≤ b` on strings, as a boolean. -/
def strLeB (a b : String) : Bool := charListLe a.data b.data

/-- Insertion into a sorted list under `strLeB`. -/
def insertSorted (x : String) : List String → List String
  | [] => [x]
  | y :: ys => if strLeB x y then x :: y :: ys else y :: insertSorted x ys

/-- Insertion sort of strings under `strLeB`. -/
def sortStrings : List String → List String
  | [] => []
  | x :: xs => insertSorted x (sortStrings xs)

/-- Modelled from the spec: the canonical v2 device-auth payload as the claim
describes it — "protocol version tag, device ID, client ID, client mode,
role, comma-joined sorted scope list, signing timestamp as a decimal
millisecond string, bearer token or empty string, and the challenge nonce
appended as the final field", pipe-joined in that order.  It differs from
the source's `buildDeviceAuthPayload` only in sorting the scope list. -/
def specDeviceAuthPayloadV2 (deviceId clientId clientMode role : String)
    (scopes : List String) (signedAtMs : Nat) (token nonce : String) : String :=
  String.intercalate "|"
    [ "v2", deviceId, clientId, clientMode, role,
      String.intercalate "," (sortStrings scopes), decRepr signedAtMs, token, nonce ]

/- ## The wrapper accessor (src/lib/gateway-wrapper.ts) -/

/-- The `GatewayConnection` state relevant to its `client` accessor
(src/lib/gateway-wrapper.ts:26): the possibly absent underlying
`OpenClawClient`.  The client type comes from the external `openclaw-client`
package and is abstracted as a type parameter. -/
structure GatewayConnection (Client : Type) where
  _client : Option Client

/-- The `client` getter (src/lib/gateway-wrapper.ts:54-60): throws
"Gateway not connected" when no client exists, else returns it. -/
def GatewayConnection.client {Client : Type} (g : GatewayConnection Client) :
    Except String Client :=
  match g._client with
  | none => Except.error "Gateway not connected"
  | some c => Except.ok c

/- ## Witness fixtures -/

/-- Options with every constructor tunable absent, i.e. all defaults. -/
def testOptions : ResolvedOptions :=
  resolveOptions
    { url := "ws://127.0.0.1:18789", token := none, maxReconnectAttempts := none,
      reconnectBaseDelay := none, requestTimeout := none }

/-- Options with `maxReconnectAttempts: 3`. -/
def limitedOptions : ResolvedOptions :=
  resolveOptions
    { url := "ws://127.0.0.1:18789", token := none, maxReconnectAttempts := some 3,
      reconnectBaseDelay := none, requestTimeout := none }

/-- A `connect.challenge` event frame carrying nonce `n`. -/
def challengeFrame (n : String) : Frame :=
  Frame.event "connect.challenge" (JVal.jobj [("nonce", JVal.jstr n)])

/-- A constructor options record with every tunable absent (all defaults). -/
def defaultClientOptions (u : String) (tk : Option String) : GatewayClientOptions :=
  { url := u, token := tk, maxReconnectAttempts := none,
    reconnectBaseDelay := none, requestTimeout := none }

/-- Characterization of the `ws.onclose` step: the pending table is emptied
and the effect list is the connection callback, then one `closed` settlement
per pending entry, then a settlement-free tail (the reconnect scheduling). -/
lemma onClose_effects (opts : ResolvedOptions) (s : CState) :
    (step opts s ClientEvent.socketClosed).1.pending = [] ∧
    ∃ tail, (step opts s ClientEvent.socketClosed).2
        = (if s.connected = true then [Eff.onConnection false] else [])
          ++ s.pending.map (fun kv => Eff.settle kv.1 RpcOutcome.closed) ++ tail
      ∧ ∀ id o, Eff.settle id o ∉ tail := by
  simp only [step, onCloseOp, scheduleReconnect]
  by_cases hic : s.intentionalClose = true
  · rw [if_pos hic]
    exact ⟨rfl, [], by simp, by simp⟩
  · rw [if_neg hic]
    by_cases hmax : maxedOut opts s.reconnectAttempts = true
    · rw [if_pos hmax]
      exact ⟨rfl, [Eff.logError "Max reconnect attempts reached"], rfl, by simp⟩
    · rw [if_neg hmax]
      exact ⟨rfl,
        [Eff.scheduleTimer (reconnectDelay opts.reconnectBaseDelay s.reconnectAttempts)],
        rfl, by simp⟩

/-- Scheduler halting is stable under any trace without a successful
handshake: no reconnect timer is ever scheduled again. -/
lemma run_no_timer (events : List ClientEvent) (opts : ResolvedOptions) (s : CState)
    (hmax : maxedOut opts s.reconnectAttempts = true)
    (hev : ∀ tok, ClientEvent.hsOutcome (HsResult.success tok) ∉ events) :
    ∀ d, Eff.scheduleTimer d ∉ (run opts s events).2 := by
  induction events generalizing s with
  | nil => intro d; simp [run]
  | cons e rest ih =>
    intro d
    have hne : ∀ tok, e ≠ ClientEvent.hsOutcome (HsResult.success tok) :=
      fun tok hc => hev tok (hc ▸ List.mem_cons_self e rest)
    have hrun : (run opts s (e :: rest)).2
        = (step opts s e).2 ++ (run opts (step opts s e).1 rest).2 := rfl
    rw [hrun]
    intro hmem
    rcases List.mem_append.mp hmem with hmem | hmem
    · exact step_no_timer opts s e hmax hne d hmem
    · have hmax' := maxedOut_mono opts hmax (step_attempts_ge opts s e hne)
      have hev' : ∀ tok, ClientEvent.hsOutcome (HsResult.success tok) ∉ rest :=
        fun tok hc => hev tok (List.mem_cons_of_mem e hc)
      exact ih (step opts s e).1 hmax' hev' d hmem

/- ## Claim theorems -/

/-- Claim C1: every request issued via `GatewayClient.request` resolves at
most once — with the payload of the response frame whose id equals the
request's correlation id, or a timeout error, or a connection-closed error —
and never with more than one of these outcomes for the same correlation id.
(The at-least-once half holds because the deadline timer armed at issue time
fires unless the entry was already settled: the `reqTimeout` event's effect,
established by the disjunction below, settles it.) -/
theorem C1_request_settles_exactly_once (opts : ResolvedOptions) (s₀ : CState)
    (events : List ClientEvent) (id : String)
    (hfresh : pendCount s₀.pending id = 0) :
    settleCount (run opts s₀ events).2 id ≤ 1 ∧
    ∀ o, Eff.settle id o ∈ (run opts s₀ events).2 →
      (∃ p err, ClientEvent.frame (Frame.res id true p err) ∈ events
        ∧ o = RpcOutcome.success p) ∨
      (∃ p err m, ClientEvent.frame (Frame.res id false p err) ∈ events
        ∧ o = RpcOutcome.failed m) ∨
      (∃ m, ClientEvent.reqTimeout id ∈ events ∧ o = RpcOutcome.timedOut m) ∨
      (ClientEvent.socketClosed ∈ events ∧ o = RpcOutcome.closed) := by
  constructor
  · have h := (run_settle_bound events opts s₀ id).2
    omega
  · intro o ho
    obtain ⟨e, he, hshape⟩ := run_settle_shape events opts s₀ id o ho
    rcases hshape with ⟨p, err, he', ho'⟩ | ⟨p, err, m, he', ho'⟩ | ⟨m, he', ho'⟩ | ⟨he', ho'⟩
    · exact Or.inl ⟨p, err, he' ▸ he, ho'⟩
    · exact Or.inr (Or.inl ⟨p, err, m, he' ▸ he, ho'⟩)
    · exact Or.inr (Or.inr (Or.inl ⟨m, he' ▸ he, ho'⟩))
    · exact Or.inr (Or.inr (Or.inr ⟨he' ▸ he, ho'⟩))

/-- Event list used by the C1 witness: connect, socket open, one request,
its matching response. -/
def C1events : List ClientEvent :=
  [ClientEvent.connect, ClientEvent.socketOpened,
   ClientEvent.sendRequest "health" none 7,
   ClientEvent.frame (Frame.res "deck-1-7" true JVal.null none)]

/-- Witness for C1 at a concrete trace. -/
theorem C1_request_settles_exactly_once_witness :
    pendCount initialState.pending "deck-1-7" = 0 ∧
    settleCount (run testOptions initialState C1events).2 "deck-1-7" ≤ 1 :=
  ⟨rfl, (C1_request_settles_exactly_once testOptions initialState C1events "deck-1-7" rfl).1⟩

/-- Claim C2: when the transport closes with `N` requests outstanding, all
`N` pending futures settle as connection-closed errors before any reconnect
scheduling effect, the pending table is emptied, and a response frame
received afterwards for a stale correlation id resolves nothing. -/
theorem C2_close_rejects_all_pending (opts : ResolvedOptions) (s : CState) :
    (step opts s ClientEvent.socketClosed).1.pending = [] ∧
    (∃ tail, (step opts s ClientEvent.socketClosed).2
        = (if s.connected = true then [Eff.onConnection false] else [])
          ++ s.pending.map (fun kv => Eff.settle kv.1 RpcOutcome.closed) ++ tail
      ∧ ∀ id o, Eff.settle id o ∉ tail) ∧
    (∀ id e, (id, e) ∈ s.pending →
      Eff.settle id RpcOutcome.closed ∈ (step opts s ClientEvent.socketClosed).2) ∧
    (∀ rid ok p err,
      handleFrame (step opts s ClientEvent.socketClosed).1 (Frame.res rid ok p err)
        = ((step opts s ClientEvent.socketClosed).1, [])) := by
  obtain ⟨hpend, tail, heff, htail⟩ := onClose_effects opts s
  refine ⟨hpend, ⟨tail, heff, htail⟩, ?_, ?_⟩
  · intro id e hmem
    rw [heff]
    apply List.mem_append_left
    apply List.mem_append_right
    exact List.mem_map.mpr ⟨(id, e), hmem, rfl⟩
  · intro rid ok p err
    have hn : pendingLookup (step opts s ClientEvent.socketClosed).1.pending rid = none := by
      rw [hpend]
      rfl
    simp [handleFrame, hn]

/-- State with two outstanding requests, used by the C2 witness. -/
def C2state : CState :=
  { initialState with
    wsOpen := true
    connected := true
    pending := [("a", ⟨"m1"⟩), ("b", ⟨"m2"⟩)] }

/-- Witness for C2: with two concrete outstanding requests, the close step
settles the first as connection-closed. -/
theorem C2_close_rejects_all_pending_witness :
    Eff.settle "a" RpcOutcome.closed ∈ (step testOptions C2state ClientEvent.socketClosed).2 :=
  (C2_close_rejects_all_pending testOptions C2state).2.2.1 "a" ⟨"m1"⟩ (by decide)

/-- Claim C3: the reconnection delay is `min(baseDelay * 2^attempt, 30000)`
with default base 1000 ms (so attempts 0,1,2,3 give 1000, 2000, 4000, 8000 ms,
the delay never exceeds 30000 ms and equals 30000 ms from attempt 5 on);
the attempt counter increments exactly when the reconnect timer fires and
resets to 0 exactly when the handshake succeeds (the connection reaching
Ready), no other event touching it. -/
theorem C3_reconnect_backoff_and_counter (opts : ResolvedOptions) (s : CState) :
    (reconnectDelay 1000 0 = 1000 ∧ reconnectDelay 1000 1 = 2000 ∧
     reconnectDelay 1000 2 = 4000 ∧ reconnectDelay 1000 3 = 8000) ∧
    (∀ n, 5 ≤ n → reconnectDelay 1000 n = 30000) ∧
    (∀ n, reconnectDelay 1000 n ≤ 30000) ∧
    (∀ u tk, (resolveOptions (defaultClientOptions u tk)).reconnectBaseDelay = 1000) ∧
    (maxedOut opts s.reconnectAttempts = false →
      (scheduleReconnect opts s).2
        = [Eff.scheduleTimer (reconnectDelay opts.reconnectBaseDelay s.reconnectAttempts)]) ∧
    ((step opts s ClientEvent.reconnectFire).1.reconnectAttempts
      = s.reconnectAttempts + 1) ∧
    (∀ tok,
      (step opts s (ClientEvent.hsOutcome (HsResult.success tok))).1.reconnectAttempts = 0 ∧
      (step opts s (ClientEvent.hsOutcome (HsResult.success tok))).1.connected = true) ∧
    (∀ e, e ≠ ClientEvent.reconnectFire →
      (∀ tok, e ≠ ClientEvent.hsOutcome (HsResult.success tok)) →
      (step opts s e).1.reconnectAttempts = s.reconnectAttempts) := by
  refine ⟨⟨by decide, by decide, by decide, by decide⟩, ?_, ?_, fun u tk => rfl, ?_, rfl,
    fun tok => ⟨rfl, rfl⟩, ?_⟩
  · intro n hn
    unfold reconnectDelay
    have h1 : 32 ≤ 2 ^ n := by
      calc (32 : Nat) = 2 ^ 5 := by decide
      _ ≤ 2 ^ n := Nat.pow_le_pow_right (by omega) hn
    have h2 : 32000 ≤ 1000 * 2 ^ n := by
      calc (32000 : Nat) = 1000 * 32 := by decide
      _ ≤ 1000 * 2 ^ n := Nat.mul_le_mul_left 1000 h1
    omega
  · intro n
    unfold reconnectDelay
    omega
  · intro h
    simp [scheduleReconnect, h]
  · intro e h1 h2
    cases e with
    | connect => rfl
    | disconnect => rfl
    | sendRequest m p t =>
      simp only [step, requestOp]
      split <;> rfl
    | socketOpened =>
      simp only [step, onOpenOp]
      split <;> rfl
    | frame f =>
      cases f with
      | req _ _ _ => rfl
      | res id ok payload error =>
        simp only [step, handleFrame]
        split <;> rfl
      | event name payload =>
        simp only [step, handleFrame]
        split
        · split
          · split <;> rfl
          · rfl
        · rfl
    | reqTimeout id =>
      simp only [step, requestTimeoutFire]
      split <;> rfl
    | socketClosed =>
      simp only [step, onCloseOp, scheduleReconnect]
      split
      · rfl
      · split <;> rfl
    | reconnectFire => exact absurd rfl h1
    | hsOutcome r =>
      cases r with
      | success tok => exact absurd rfl (h2 tok)
      | failure msg =>
        simp only [step, handshakeOutcome]
        split <;> rfl

/-- Witness for C3: attempt 6 is capped at 30000 ms. -/
theorem C3_reconnect_backoff_and_counter_witness : reconnectDelay 1000 6 = 30000 :=
  (C3_reconnect_backoff_and_counter testOptions initialState).2.1 6 (by omega)

/-- Claim C4 counterexample: on the concrete trace connect, socket open,
first challenge (consumed by the handshake), second challenge — the second
`connect.challenge` arrives before handshake completion (the final state is
still not connected), yet it is delivered to the external event subscriber. -/
theorem C4_challenge_forwarded_pre_ready_counterexample :
    ((run testOptions initialState
        [ClientEvent.connect, ClientEvent.socketOpened,
         ClientEvent.frame (challengeFrame "n1"),
         ClientEvent.frame (challengeFrame "n2")]).1.connected = false) ∧
    ((run testOptions initialState
        [ClientEvent.connect, ClientEvent.socketOpened,
         ClientEvent.frame (challengeFrame "n1"),
         ClientEvent.frame (challengeFrame "n2")]).2
      = [Eff.challengeResolved (JVal.jstr "n1"),
         Eff.emitEvent (challengeFrame "n2")]) :=
  ⟨rfl, rfl⟩

/-- Claim C4 (amended): a `connect.challenge` event is consumed internally by
the handshake exactly when the negotiator is currently waiting for a
challenge and the payload carries a truthy nonce; at any other time —
including before handshake completion once the waiting window has closed,
and after Ready (when the negotiator is not waiting) — it is delivered to
the external event subscriber normally. -/
theorem C4_challenge_interception_amended (s : CState) (name : String) (payload : JVal) :
    (s.challengeWaiting = false →
      handleFrame s (Frame.event name payload)
        = (s, [Eff.emitEvent (Frame.event name payload)])) ∧
    (∀ v, name = "connect.challenge" → s.challengeWaiting = true →
      getField payload "nonce" = some v → truthy v = true →
      handleFrame s (Frame.event name payload)
        = ({ s with challengeNonce := some v, challengeWaiting := false },
           [Eff.challengeResolved v])) ∧
    (name ≠ "connect.challenge" →
      handleFrame s (Frame.event name payload)
        = (s, [Eff.emitEvent (Frame.event name payload)])) ∧
    (getField payload "nonce" = none →
      handleFrame s (Frame.event name payload)
        = (s, [Eff.emitEvent (Frame.event name payload)])) := by
  refine ⟨?_, ?_, ?_, ?_⟩
  · intro h
    simp [handleFrame, h]
  · intro v hname hwait hget htruthy
    simp [handleFrame, hname, hwait, hget, htruthy]
  · intro h
    simp [handleFrame, h]
  · intro h
    by_cases hc : name = "connect.challenge" ∧ s.challengeWaiting = true
    · simp [handleFrame, hc, h]
    · simp [handleFrame, hc]

/-- Witness for the amended C4: with the negotiator not waiting, a challenge
frame is forwarded unchanged. -/
theorem C4_challenge_interception_amended_witness :
    handleFrame { initialState with wsOpen := true } (challengeFrame "n2")
      = ({ initialState with wsOpen := true }, [Eff.emitEvent (challengeFrame "n2")]) :=
  (C4_challenge_interception_amended { initialState with wsOpen := true }
    "connect.challenge" (JVal.jobj [("nonce", JVal.jstr "n2")])).1 rfl

/-- Claim C5 counterexample: the payload the code signs joins the scope list
in its declaration order `operator.read,operator.write,operator.pairing` —
not sorted, which would be `operator.pairing,operator.read,operator.write` —
so the claim's "comma-joined sorted scope list" disagrees with the code at
the concrete invocation. -/
theorem C5_sorted_scopes_counterexample :
    buildSignedDeviceIdentityPayload "d0" 1000 (some "tok") "n0"
      ≠ specDeviceAuthPayloadV2 "d0" "gateway-client" "webchat" "operator"
          OPERATOR_SCOPES 1000 "tok" "n0" ∧
    String.intercalate "," (sortStrings OPERATOR_SCOPES)
      = "operator.pairing,operator.read,operator.write" ∧
    buildSignedDeviceIdentityPayload "d0" 1000 (some "tok") "n0"
      = "v2|d0|gateway-client|webchat|operator|operator.read,operator.write,operator.pairing|1000|tok|n0" :=
  ⟨by decide, by decide, by decide⟩

/-- Claim C5 (amended): the canonical v2 device-auth payload is the
pipe-joined ordered sequence — version tag, device ID, client ID, client
mode, role, comma-joined scope list in the order provided (for the operator
scopes: declaration order, not sorted), signing timestamp as a decimal
millisecond string, bearer token or empty string, and the challenge nonce
as the final field — with no reordering of fields. -/
theorem C5_device_auth_payload_amended (deviceId : String) (signedAt : Nat)
    (token : Option String) (nonce : String) :
    buildSignedDeviceIdentityPayload deviceId signedAt token nonce
      = "v2" ++ "|" ++ deviceId ++ "|" ++ "gateway-client" ++ "|" ++ "webchat" ++ "|"
        ++ "operator" ++ "|" ++ "operator.read,operator.write,operator.pairing" ++ "|"
        ++ decRepr signedAt ++ "|" ++ token.getD "" ++ "|" ++ nonce := by
  rfl

/-- Claim C6: for every handshake cycle failing with a pairing-required
message, the pairing callback fires with `true` exactly once per pending
cycle, and fires with `false` exactly once when the subsequent successful
attempt reaches Ready. -/
theorem C6_pairing_callback_counts (s : CState) (msgs : List String) (tok : Option String)
    (h : ∀ m ∈ msgs, strIncludes m "pairing required" = true) :
    pairingCount (runHandshakeCycles s
      (msgs.map HsResult.failure ++ [HsResult.success tok])).2 true = msgs.length ∧
    pairingCount (runHandshakeCycles s
      (msgs.map HsResult.failure ++ [HsResult.success tok])).2 false = 1 ∧
    (runHandshakeCycles s (msgs.map HsResult.failure ++ [HsResult.success tok])).1.connected
      = true := by
  induction msgs generalizing s with
  | nil =>
    cases tok <;>
      simp [runHandshakeCycles, handshakeOutcome, pairingCount, List.filter_cons]
  | cons m ms ih =>
    have hm : strIncludes m "pairing required" = true := h m (List.mem_cons_self m ms)
    have hrest : ∀ x ∈ ms, strIncludes x "pairing required" = true :=
      fun x hx => h x (List.mem_cons_of_mem m hx)
    obtain ⟨ih1, ih2, ih3⟩ := ih { s with challengeNonce := none, challengeWaiting := true } hrest
    have hunfold :
        runHandshakeCycles s ((m :: ms).map HsResult.failure ++ [HsResult.success tok])
        = ((runHandshakeCycles { s with challengeNonce := none, challengeWaiting := true }
              (ms.map HsResult.failure ++ [HsResult.success tok])).1,
           [Eff.onPairingRequired true]
             ++ (runHandshakeCycles { s with challengeNonce := none, challengeWaiting := true }
                  (ms.map HsResult.failure ++ [HsResult.success tok])).2) := by
      simp [runHandshakeCycles, handshakeOutcome, hm]
    rw [hunfold]
    have h1 : pairingCount [Eff.onPairingRequired true] true = 1 := by
      simp [pairingCount, List.filter_cons]
    have h0 : pairingCount [Eff.onPairingRequired true] false = 0 := by
      simp [pairingCount, List.filter_cons]
    refine ⟨?_, ?_, ih3⟩
    · rw [pairingCount_append, ih1, h1, List.length_cons]
      omega
    · rw [pairingCount_append, ih2, h0]

/-- Witness for C6: one pairing-required cycle followed by success fires the
callback with `true` exactly once. -/
theorem C6_pairing_callback_counts_witness :
    pairingCount (runHandshakeCycles initialState
      [HsResult.failure "device pairing required", HsResult.success none]).2 true = 1 :=
  (C6_pairing_callback_counts initialState ["device pairing required"] none (by decide)).1

/-- Claim C7 counterexample: from a fresh client after connect and socket
open — a state with the transport open but the handshake not completed
(`connected = false`) — a `request` call is accepted and transmitted, not
rejected: the guard consults only the socket's readyState. -/
theorem C7_request_pre_ready_accepted_counterexample :
    ((run testOptions initialState
        [ClientEvent.connect, ClientEvent.socketOpened]).1.connected = false) ∧
    ((run testOptions initialState
        [ClientEvent.connect, ClientEvent.socketOpened]).1.wsOpen = true) ∧
    ((requestOp testOptions
        (run testOptions initialState [ClientEvent.connect, ClientEvent.socketOpened]).1
        "health" none 42).2
      = [Eff.armTimeout "deck-1-42" 30000,
         Eff.wsSend (Frame.req "deck-1-42" "health" (JVal.jobj []))]) :=
  ⟨rfl, rfl, rfl⟩

/-- Claim C7 (amended): `request` fails immediately (no queuing) exactly when
the underlying WebSocket is not open; the Ready/handshake state is not
consulted, so a request issued while the transport is open but the handshake
has not completed is accepted, registered and transmitted. -/
theorem C7_request_guard_amended (opts : ResolvedOptions) (s : CState)
    (method : String) (params : Option JVal) (time : Nat) :
    ((step opts s (ClientEvent.sendRequest method params time)).2
        = [Eff.reqError "Gateway not connected"] ↔ s.wsOpen = false) ∧
    (s.wsOpen = true →
      pendingLookup (step opts s (ClientEvent.sendRequest method params time)).1.pending
          (nextId (s.msgCounter + 1) time) = some { method := method } ∧
      Eff.wsSend (Frame.req (nextId (s.msgCounter + 1) time) method
          (params.getD (JVal.jobj [])))
        ∈ (step opts s (ClientEvent.sendRequest method params time)).2) := by
  constructor
  · constructor
    · intro h
      cases hb : s.wsOpen with
      | false => rfl
      | true =>
        rw [step, requestOp] at h
        rw [hb] at h
        simp at h
    · intro h
      simp [step, requestOp, h]
  · intro h
    simp only [step, requestOp, h]
    refine ⟨?_, ?_⟩
    · simp only [Bool.true_eq_false, if_false]
      exact pendingLookup_set_self s.pending (nextId (s.msgCounter + 1) time) { method := method }
    · simp

/-- Witness for the amended C7 at the concrete pre-Ready open-socket state. -/
theorem C7_request_guard_amended_witness :
    Eff.wsSend (Frame.req "deck-1-42" "health" (JVal.jobj []))
      ∈ (step testOptions
          (run testOptions initialState [ClientEvent.connect, ClientEvent.socketOpened]).1
          (ClientEvent.sendRequest "health" none 42)).2 :=
  ((C7_request_guard_amended testOptions
      (run testOptions initialState [ClientEvent.connect, ClientEvent.socketOpened]).1
      "health" none 42).2 rfl).2

/-- Claim C8 counterexample: with `maxReconnectAttempts: 3` and the counter
at 3, the scheduler leaves the state untouched (no timer armed) and its only
effect is a console error — no fatal state reaches any subscriber callback,
refuting "a fatal state is surfaced to subscribers". -/
theorem C8_no_fatal_surfaced_counterexample :
    scheduleReconnect limitedOptions { initialState with reconnectAttempts := 3 }
      = ({ initialState with reconnectAttempts := 3 },
         [Eff.logError "Max reconnect attempts reached"]) :=
  rfl

/-- Claim C8 (amended): when the attempt counter reaches the configured
maximum, the scheduler halts retries permanently — it schedules no timer
then, and no reconnect-timer effect occurs on any later trace without a
successful handshake — but no fatal state is surfaced to subscribers: the
only action is a diagnostic console error. -/
theorem C8_max_attempts_halt_amended (opts : ResolvedOptions) (s : CState)
    (h : maxedOut opts s.reconnectAttempts = true) :
    scheduleReconnect opts s = (s, [Eff.logError "Max reconnect attempts reached"]) ∧
    (∀ e, (∀ tok, e ≠ ClientEvent.hsOutcome (HsResult.success tok)) →
      maxedOut opts (step opts s e).1.reconnectAttempts = true) ∧
    (∀ events, (∀ tok, ClientEvent.hsOutcome (HsResult.success tok) ∉ events) →
      ∀ d, Eff.scheduleTimer d ∉ (run opts s events).2) := by
  refine ⟨by simp [scheduleReconnect, h], ?_, ?_⟩
  · intro e hne
    exact maxedOut_mono opts h (step_attempts_ge opts s e hne)
  · intro events hev
    exact run_no_timer events opts s h hev

/-- Witness for the amended C8 at a concrete maxed-out state. -/
theorem C8_max_attempts_halt_amended_witness :
    scheduleReconnect limitedOptions { initialState with reconnectAttempts := 5 }
      = ({ initialState with reconnectAttempts := 5 },
         [Eff.logError "Max reconnect attempts reached"]) :=
  (C8_max_attempts_halt_amended limitedOptions
    { initialState with reconnectAttempts := 5 } (by decide)).1

/-- Claim C9: when the deadline timer of an outstanding request fires, its
promise settles as a timeout error whose message names the method, the
pending entry is removed, a response arriving later for the same correlation
id causes no further action, and the default timeout is 30000 ms. -/
theorem C9_request_timeout (opts : ResolvedOptions) (s : CState) (id : String)
    (entry : PendingEntry) (h : pendingLookup s.pending id = some entry) :
    requestTimeoutFire s id
      = ({ s with pending := pendingErase s.pending id },
         [Eff.settle id (RpcOutcome.timedOut entry.method)]) ∧
    rejectionMessage (RpcOutcome.timedOut entry.method)
      = some ("Request " ++ entry.method ++ " timed out") ∧
    strIncludes ("Request " ++ entry.method ++ " timed out") entry.method = true ∧
    pendingLookup (pendingErase s.pending id) id = none ∧
    (∀ ok p err,
      handleFrame { s with pending := pendingErase s.pending id } (Frame.res id ok p err)
        = ({ s with pending := pendingErase s.pending id }, [])) ∧
    (∀ u tk, (resolveOptions (defaultClientOptions u tk)).requestTimeout = 30000) := by
  refine ⟨?_, rfl, strIncludes_embedded "Request " entry.method " timed out",
    pendingLookup_erase_self s.pending id, ?_, fun u tk => rfl⟩
  · simp [requestTimeoutFire, h]
  · intro ok p err
    have hn := pendingLookup_erase_self s.pending id
    simp [handleFrame, hn]

/-- State with one outstanding request, used by the C9 witness. -/
def C9state : CState :=
  { initialState with
    wsOpen := true
    connected := true
    pending := [("x", ⟨"health"⟩)] }

/-- Witness for C9: the concrete timeout firing settles the request as a
timeout naming its method. -/
theorem C9_request_timeout_witness :
    requestTimeoutFire C9state "x"
      = ({ C9state with pending := [] },
         [Eff.settle "x" (RpcOutcome.timedOut "health")]) :=
  (C9_request_timeout testOptions C9state "x" ⟨"health"⟩ (by decide)).1

/-- Claim C10: accessing `GatewayConnection.client` when no underlying
client has been created yields the error "Gateway not connected" rather than
a null value; when a client exists it is returned unchanged. -/
theorem C10_client_accessor {Client : Type} (g : GatewayConnection Client) :
    (g._client = none → g.client = Except.error "Gateway not connected") ∧
    (∀ c, g._client = some c → g.client = Except.ok c) := by
  constructor
  · intro h
    simp [GatewayConnection.client, h]
  · intro c h
    simp [GatewayConnection.client, h]

/-- Witness for C10 at the empty connection. -/
theorem C10_client_accessor_witness :
    (⟨none⟩ : GatewayConnection Nat).client = Except.error "Gateway not connected" :=
  (C10_client_accessor (⟨none⟩ : GatewayConnection Nat)).1 rfl

end OpenClawDeck
